import Mathlib

/-!
Verification of the memory/context pipeline of the `awareness_bot` repository
(`database.py`, `memory_processor.py`, `summary_scheduler.py`, `context_manager.py`)
against its natural-language specification.

Modelling conventions (shallow embedding):
* SQLite tables are Lean lists of structure values kept in insertion (rowid) order.
* SQLite/Python timestamps are `Nat` seconds; `datetime('now', '-1 minute')`
  becomes the bound `now ≤ ts + 60`, and Python's `timedelta.days` becomes
  truncated natural division by 86400 (both agree on the comparisons the code
  performs, including when the difference would be negative: Python's floored
  negative day count and Nat's truncation to zero both fail a `≥ 1` test).
* Python/SQLite floats are modelled as rationals (`ℚ`).
* The LLM service is an explicit argument of type `String → Except String α`
  (or a concrete `Except String α` value): `Except.error` models the call
  raising, `Except.ok` a successful structured parse.  Functions that track
  whether the LLM was used return the number of calls performed.
* A Python function that can raise to its caller is modelled with an
  `Except String` result; a function that cannot raise is modelled total.
-/

/-- Message as returned by `get_conversations_for_timeframe` /
`get_conversation_history`: a role and a content string. -/
structure ConvMsg where
  role : String
  content : String
deriving DecidableEq

/-- Row of the `conversations` table (insertion order = rowid order). -/
structure Conv where
  id : Nat
  user_id : String
  role : String
  content : String
  timestamp : Nat
deriving DecidableEq

/-- Row of the `topics` table. -/
structure Topic where
  id : Nat
  user_id : String
  name : String
  relevance_score : ℚ
  first_mentioned : Nat
  last_mentioned : Nat
  mention_count : Nat
  is_resolved : Bool
deriving DecidableEq

/-- Pydantic model `SummaryContent` (`memory_processor.py` lines 62-69): the
six-field structured summary document. -/
structure SummaryContent where
  key_themes : List String
  emotional_journey : String
  insights_gained : List String
  progress_made : String
  action_items : List String
  recommended_focus : String
deriving DecidableEq

/-- Row of the `memory_summaries` table. -/
structure SummaryRow where
  user_id : String
  timeframe : String
  summary : SummaryContent
  start_date : Nat
  end_date : Nat
  last_updated : Nat
deriving DecidableEq

/-- The slice of the user profile the summary generator reads
(`get_user_profile` result; only the codex vitae is consulted by the
summary-generation code paths modelled here). -/
structure Profile where
  codex_vitae : List (String × String)
deriving DecidableEq

/-- Python `str.capitalize()`: first character upper-cased, the rest
lower-cased. -/
def pyCapitalize (s : String) : String :=
  match s.data with
  | [] => ""
  | c :: cs => String.mk (c.toUpper :: cs.map Char.toLower)

/-- Python `str.lower()` and SQLite `LOWER()`, modelled character-wise (the
two agree on the ASCII names handled here). -/
def pyLower (s : String) : String := String.mk (s.data.map Char.toLower)

/-- Python `str.strip()`: remove leading and trailing whitespace. -/
def pyStrip (s : String) : String :=
  String.mk (((s.data.dropWhile Char.isWhitespace).reverse.dropWhile Char.isWhitespace).reverse)

/-- Python `key.replace('_', ' ')` for the single-character pattern used by
the codex-vitae formatters. -/
def replaceUnderscores (s : String) : String :=
  String.mk (s.data.map (fun c => if c = '_' then ' ' else c))

theorem pyLower_length (s : String) : (pyLower s).length = s.length := by
  show (s.data.map Char.toLower).length = s.data.length
  exact List.length_map _ _

/-- DatabaseManager.save_summary (`database.py` lines 384-397): inserts a new
`memory_summaries` row with `start_date = now - 1 day`, `end_date = now`,
`last_updated = now`. -/
def save_summary (st : List SummaryRow) (user_id timeframe : String)
    (summary : SummaryContent) (now : Nat) : List SummaryRow :=
  st ++ [⟨user_id, timeframe, summary, now - 86400, now, now⟩]

/-- Rows of the `memory_summaries` table belonging to one user and timeframe
(the `WHERE user_id = ? AND timeframe = ?` filter), in rowid order. -/
def rows_for (st : List SummaryRow) (user_id timeframe : String) : List SummaryRow :=
  st.filter (fun r => r.user_id = user_id ∧ r.timeframe = timeframe)

/-- Step of the maximal-`last_updated` selection: a strictly later row
displaces the current choice. -/
def later_row (acc : Option SummaryRow) (r : SummaryRow) : Option SummaryRow :=
  match acc with
  | none => some r
  | some a => if a.last_updated < r.last_updated then some r else some a

/-- First row attaining the maximal `last_updated` of a list
(realizing `ORDER BY last_updated DESC LIMIT 1`). -/
def latest_of (rows : List SummaryRow) : Option SummaryRow :=
  rows.foldl later_row none

/-- DatabaseManager.get_latest_summary (`database.py` lines 399-421):
`SELECT ... WHERE user_id = ? AND timeframe = ? ORDER BY last_updated DESC
LIMIT 1`. -/
def get_latest_summary (st : List SummaryRow) (user_id timeframe : String) :
    Option SummaryRow :=
  latest_of (rows_for st user_id timeframe)

/-- The fixed "no activity" document built by `generate_timeframe_summary`
when the timeframe window holds zero conversation turns
(`memory_processor.py` lines 670-677). -/
def no_activity_summary : SummaryContent :=
  { key_themes := ["No activity"]
    emotional_journey := "There was no coaching activity during this period."
    insights_gained := ["Consider re-engaging with the coaching process"]
    progress_made := "No coaching interactions to assess progress during this period."
    action_items := ["Schedule a check-in session", "Review previous goals"]
    recommended_focus := "Consider what support would be most valuable right now and how to re-engage with the coaching process." }

/-- MemoryProcessor._create_fallback_summary (`memory_processor.py` lines
902-912): the fixed document substituted when LLM summary generation fails. -/
def create_fallback_summary : SummaryContent :=
  { key_themes := ["Technical error prevented detailed analysis"]
    emotional_journey := "Unable to analyze emotional journey due to technical limitations."
    insights_gained := ["Check conversation directly for insights"]
    progress_made := "Summary generation encountered an error. Please review conversations directly."
    action_items := ["Review conversation history manually", "Try generating summary again later"]
    recommended_focus := "Addressing immediate client needs while technical issues are resolved." }

/-- Python `content[:497] + "..."` truncation applied by
`_format_conversations_for_summary` to contents longer than 500 characters. -/
def truncate500 (content : String) : String :=
  if content.length > 500 then (content.take 497).append "..." else content

/-- MemoryProcessor._format_conversations_for_summary (`memory_processor.py`
lines 747-772): role-prefixed lines joined by blank lines, skipping messages
with an empty role or content, truncating long contents. -/
def format_conversations_for_summary (conversations : List ConvMsg) : String :=
  if conversations = [] then "No conversations in this period."
  else
    String.intercalate "\n\n"
      (conversations.filterMap (fun m =>
        if m.role ≠ "" ∧ m.content ≠ "" then
          some ((pyCapitalize m.role).append (": ".append (truncate500 m.content)))
        else none))

/-- Priority codex-vitae keys used by the formatting helpers
(`memory_processor.py` lines 550, 738, 798). -/
def priority_keys : List String :=
  ["core_values", "reactivity_triggers", "burnout_warning_signs", "joy_triggers"]

/-- MemoryProcessor._format_codex_vitae_context (`memory_processor.py` lines
732-745).  The codex vitae dict is modelled as an association list; a key is
emitted when present with a non-empty (truthy) value. -/
def format_codex_vitae_context (codex_vitae : List (String × String)) : String :=
  if codex_vitae = [] then ""
  else
    priority_keys.foldl
      (fun acc key =>
        match codex_vitae.lookup key with
        | some v =>
          if v ≠ "" then
            acc.append ("- ".append ((pyCapitalize (replaceUnderscores key)).append (": ".append (v.append "\n"))))
          else acc
        | none => acc)
      "Important context from client's Codex Vitae:\n"

/-- Prompt text assembled by `generate_timeframe_summary` (lines 693-704);
the surrounding indentation whitespace of the Python f-string is elided, the
informative parts (conversations, codex context, timeframe) are kept. -/
def summary_prompt (timeframe formatted_conversations codex_context : String) : String :=
  ("You are a nervous system-focused AI coach. Generate a summary of the client's conversations over the past ".append timeframe).append
    ((".\nHere are the conversations:\n".append formatted_conversations).append
      (("\n".append codex_context).append
        "\nGenerate a structured summary that captures the key themes, emotional journey, insights gained, progress made, action items, and recommended focus areas."))

/-- MemoryProcessor.generate_timeframe_summary (`memory_processor.py` lines
649-730), modelled over the `memory_summaries` table state.  The database
reads performed by the function are passed in as arguments: `profile` is the
`get_user_profile` result (`none` models a falsy profile, the guard at line
660), `conversations` the `get_conversations_for_timeframe` result.  `llm`
maps the prompt to the structured-output call's result; `Except.error` models
the call raising, in which case the fixed fallback document is saved (lines
722-727).  Returns the new table state and the number of LLM calls made. -/
def generate_timeframe_summary (st : List SummaryRow) (user_id timeframe : String)
    (profile : Option Profile) (conversations : List ConvMsg)
    (llm : String → Except String SummaryContent) (now : Nat) :
    List SummaryRow × Nat :=
  match profile with
  | none => (st, 0)
  | some p =>
    if conversations = [] then
      (save_summary st user_id timeframe no_activity_summary now, 0)
    else
      let prompt := summary_prompt timeframe
        (format_conversations_for_summary conversations)
        (format_codex_vitae_context p.codex_vitae)
      match llm prompt with
      | Except.ok summary => (save_summary st user_id timeframe summary now, 1)
      | Except.error _ => (save_summary st user_id timeframe create_fallback_summary now, 1)

/-- MemoryProcessor._summary_needed (`memory_processor.py` lines 623-647):
whether a fresh summary must be generated given the most recent one.  Python's
`(current_time - last_updated).days >= k` becomes `(now - last_updated) / 86400 ≥ k`
(`Nat` subtraction truncates a clock that ran backwards to zero days, exactly
as Python's floored negative day count also fails the `≥ k` test). -/
def summary_needed (last_summary : Option SummaryRow) (timeframe : String) (now : Nat) : Bool :=
  match last_summary with
  | none => true
  | some s =>
    if timeframe = "daily" then (now - s.last_updated) / 86400 ≥ 1
    else if timeframe = "weekly" then (now - s.last_updated) / 86400 ≥ 7
    else false

/-- One timeframe's check-and-regenerate step of `generate_summaries`
(`memory_processor.py` lines 610-613 resp. 616-619): fetch the latest summary
of the timeframe and regenerate when none exists (`not daily_summary`) or the
staleness check `_summary_needed` fires. -/
def timeframe_step (st : List SummaryRow) (user_id timeframe : String)
    (profile : Option Profile) (convs : String → List ConvMsg)
    (llm : String → Except String SummaryContent) (now : Nat) : List SummaryRow :=
  if get_latest_summary st user_id timeframe = none ∨
      summary_needed (get_latest_summary st user_id timeframe) timeframe now then
    (generate_timeframe_summary st user_id timeframe profile (convs timeframe) llm now).1
  else st

/-- MemoryProcessor.generate_summaries (`memory_processor.py` lines 599-621):
regenerate the daily summary when none exists or the staleness check fires,
then likewise for the weekly summary (reading the latest weekly summary after
the daily step, as the code does).  The conversation windows read from the
database are supplied by `convs` per timeframe. -/
def generate_summaries (st : List SummaryRow) (user_id : String)
    (profile : Option Profile) (convs : String → List ConvMsg)
    (llm : String → Except String SummaryContent) (now : Nat) : List SummaryRow :=
  timeframe_step (timeframe_step st user_id "daily" profile convs llm now)
    user_id "weekly" profile convs llm now

/-- Claim-side staleness condition (spec §4.3: "a timeframe's summary is
regenerated only if none exists, or if the previous summary's `last_updated`
is ≥24h old (daily) / ≥7 days old (weekly)"): no summary exists, or the
latest one's `last_updated` is at least `threshold` seconds in the past. -/
def regen_due (st : List SummaryRow) (user_id timeframe : String)
    (threshold now : Nat) : Bool :=
  match get_latest_summary st user_id timeframe with
  | none => true
  | some r => threshold ≤ now - r.last_updated

/-- The document a (non-skipped) timeframe-summary generation run persists:
the fixed no-activity document on an empty window, the parsed LLM document on
success, the fixed fallback document on LLM failure. -/
def generated_doc (timeframe : String) (p : Profile) (conversations : List ConvMsg)
    (llm : String → Except String SummaryContent) : SummaryContent :=
  if conversations = [] then no_activity_summary
  else
    match llm (summary_prompt timeframe
        (format_conversations_for_summary conversations)
        (format_codex_vitae_context p.codex_vitae)) with
    | Except.ok summary => summary
    | Except.error _ => create_fallback_summary

/-- With a (truthy) profile, `generate_timeframe_summary` always appends
exactly one row, holding `generated_doc`, and `save_summary` timestamps it
with `now`. -/
theorem generate_timeframe_summary_fst (st : List SummaryRow)
    (u tf : String) (p : Profile) (conversations : List ConvMsg)
    (llm : String → Except String SummaryContent) (now : Nat) :
    (generate_timeframe_summary st u tf (some p) conversations llm now).1
      = st ++ [⟨u, tf, generated_doc tf p conversations llm, now - 86400, now, now⟩] := by
  unfold generate_timeframe_summary generated_doc save_summary
  by_cases h : conversations = [] <;> simp [h]
  cases llm (summary_prompt tf (format_conversations_for_summary conversations)
    (format_codex_vitae_context p.codex_vitae)) <;> simp

theorem rows_for_append (st : List SummaryRow) (row : SummaryRow) (u tf : String) :
    rows_for (st ++ [row]) u tf
      = rows_for st u tf ++ (if row.user_id = u ∧ row.timeframe = tf then [row] else []) := by
  unfold rows_for
  rw [List.filter_append]
  by_cases h : row.user_id = u ∧ row.timeframe = tf <;> simp [h]

/-- The fold computing the latest row returns an element of the list whose
`last_updated` dominates every element (and the accumulator). -/
theorem foldl_later_row_spec (rows : List SummaryRow) (acc : SummaryRow) :
    ∃ r, rows.foldl later_row (some acc) = some r ∧ (r = acc ∨ r ∈ rows) ∧
      acc.last_updated ≤ r.last_updated ∧
      ∀ x ∈ rows, x.last_updated ≤ r.last_updated := by
  induction rows generalizing acc with
  | nil => exact ⟨acc, rfl, Or.inl rfl, le_refl _, by simp⟩
  | cons b l ih =>
    by_cases hb : acc.last_updated < b.last_updated
    · obtain ⟨r, hr, hmem, hle, hall⟩ := ih b
      refine ⟨r, ?_, ?_, ?_, ?_⟩
      · simpa [later_row, hb] using hr
      · rcases hmem with h | h
        · exact Or.inr (by simp [h])
        · exact Or.inr (by simp [h])
      · exact le_trans (le_of_lt hb) hle
      · intro x hx
        rcases List.mem_cons.mp hx with h | h
        · exact h ▸ hle
        · exact hall x h
    · obtain ⟨r, hr, hmem, hle, hall⟩ := ih acc
      refine ⟨r, ?_, ?_, hle, ?_⟩
      · simpa [later_row, hb] using hr
      · rcases hmem with h | h
        · exact Or.inl h
        · exact Or.inr (by simp [h])
      · intro x hx
        rcases List.mem_cons.mp hx with h | h
        · exact h ▸ le_trans (Nat.le_of_not_lt hb) hle
        · exact hall x h

/-- On a list containing a row stamped `t` in which every row is stamped at
most `t`, the latest-row selection returns a row stamped exactly `t`. -/
theorem latest_of_stamp (rows : List SummaryRow) (t : Nat)
    (hall : ∀ r ∈ rows, r.last_updated ≤ t)
    (hex : ∃ r ∈ rows, r.last_updated = t) :
    ∃ r, latest_of rows = some r ∧ r.last_updated = t := by
  match rows with
  | [] => exact absurd hex (by simp)
  | a :: l =>
    obtain ⟨r, hr, hmem, _, hdom⟩ := foldl_later_row_spec l a
    refine ⟨r, hr, ?_⟩
    obtain ⟨x, hx, hxt⟩ := hex
    have hrle : r.last_updated ≤ t := by
      rcases hmem with h | h
      · exact h ▸ hall a (by simp)
      · exact hall r (by simp [h])
    have hxr : x.last_updated ≤ r.last_updated := by
      rcases List.mem_cons.mp hx with h | h
      · subst h
        rcases hmem with h' | h'
        · exact h' ▸ le_refl _
        · obtain ⟨r', hr', hmem', hle', _⟩ := foldl_later_row_spec l x
          rw [hr] at hr'
          exact (Option.some_inj.mp hr') ▸ hle'
      · exact hdom x h
    omega

theorem get_latest_summary_append_other (st : List SummaryRow) (row : SummaryRow)
    (u tf : String) (h : ¬(row.user_id = u ∧ row.timeframe = tf)) :
    get_latest_summary (st ++ [row]) u tf = get_latest_summary st u tf := by
  unfold get_latest_summary
  rw [rows_for_append]
  simp [h]

/-- The daily guard of `generate_summaries` (line 611, together with the
`not last_summary` short-circuit inside `_summary_needed`) holds exactly when
the claim-side staleness condition with a 24-hour threshold does. -/
theorem daily_guard_iff (st : List SummaryRow) (u : String) (now : Nat) :
    (get_latest_summary st u "daily" = none ∨
      summary_needed (get_latest_summary st u "daily") "daily" now = true)
      ↔ regen_due st u "daily" 86400 now = true := by
  unfold regen_due summary_needed
  cases h : get_latest_summary st u "daily" with
  | none => simp
  | some r =>
    simp [ge_iff_le, Nat.one_le_div_iff (show (0:ℕ) < 86400 by norm_num)]

/-- The weekly guard of `generate_summaries` (line 617) holds exactly when
the claim-side staleness condition with a 7-day threshold does. -/
theorem weekly_guard_iff (st : List SummaryRow) (u : String) (now : Nat) :
    (get_latest_summary st u "weekly" = none ∨
      summary_needed (get_latest_summary st u "weekly") "weekly" now = true)
      ↔ regen_due st u "weekly" 604800 now = true := by
  unfold regen_due summary_needed
  cases h : get_latest_summary st u "weekly" with
  | none => simp
  | some r =>
    have h7 : (7 : ℕ) ≤ (now - r.last_updated) / 86400 ↔ 604800 ≤ now - r.last_updated := by
      rw [Nat.le_div_iff_mul_le (by norm_num : (0:ℕ) < 86400)]
    simp [ge_iff_le, h7]

/-- A `generate_summaries` run appends exactly one daily row (holding the
generated document, stamped `now`) when the daily staleness condition fires,
and leaves the daily rows untouched otherwise. -/
theorem generate_summaries_rows_daily (st : List SummaryRow) (u : String) (p : Profile)
    (convs : String → List ConvMsg) (llm : String → Except String SummaryContent)
    (now : Nat) :
    rows_for (generate_summaries st u (some p) convs llm now) u "daily"
      = rows_for st u "daily" ++
        (if regen_due st u "daily" 86400 now then
          [⟨u, "daily", generated_doc "daily" p (convs "daily") llm, now - 86400, now, now⟩]
        else []) := by
  have hstep : timeframe_step st u "daily" (some p) convs llm now
      = if regen_due st u "daily" 86400 now then
          st ++ [⟨u, "daily", generated_doc "daily" p (convs "daily") llm, now - 86400, now, now⟩]
        else st := by
    unfold timeframe_step
    by_cases hd : regen_due st u "daily" 86400 now = true
    · rw [if_pos ((daily_guard_iff st u now).mpr hd), if_pos hd,
        generate_timeframe_summary_fst]
    · rw [if_neg (fun h => hd ((daily_guard_iff st u now).mp h)), if_neg hd]
  unfold generate_summaries
  rw [hstep]
  by_cases hd : regen_due st u "daily" 86400 now = true
  · rw [if_pos hd, if_pos hd]
    unfold timeframe_step
    by_cases hw : (get_latest_summary (st ++ [⟨u, "daily", generated_doc "daily" p (convs "daily") llm, now - 86400, now, now⟩]) u "weekly" = none ∨
        summary_needed (get_latest_summary (st ++ [⟨u, "daily", generated_doc "daily" p (convs "daily") llm, now - 86400, now, now⟩]) u "weekly") "weekly" now = true)
    · rw [if_pos hw, generate_timeframe_summary_fst, rows_for_append, rows_for_append]
      simp
    · rw [if_neg hw, rows_for_append]
      simp
  · rw [if_neg hd, if_neg hd]
    unfold timeframe_step
    by_cases hw : (get_latest_summary st u "weekly" = none ∨
        summary_needed (get_latest_summary st u "weekly") "weekly" now = true)
    · rw [if_pos hw, generate_timeframe_summary_fst, rows_for_append]
      simp
    · rw [if_neg hw]
      simp

/-- A `generate_summaries` run appends exactly one weekly row when the weekly
staleness condition fires (judged on the original state: the daily row that
may have been appended in between does not affect the weekly rows), and
leaves the weekly rows untouched otherwise. -/
theorem generate_summaries_rows_weekly (st : List SummaryRow) (u : String) (p : Profile)
    (convs : String → List ConvMsg) (llm : String → Except String SummaryContent)
    (now : Nat) :
    rows_for (generate_summaries st u (some p) convs llm now) u "weekly"
      = rows_for st u "weekly" ++
        (if regen_due st u "weekly" 604800 now then
          [⟨u, "weekly", generated_doc "weekly" p (convs "weekly") llm, now - 86400, now, now⟩]
        else []) := by
  have hstep : timeframe_step st u "daily" (some p) convs llm now
      = if regen_due st u "daily" 86400 now then
          st ++ [⟨u, "daily", generated_doc "daily" p (convs "daily") llm, now - 86400, now, now⟩]
        else st := by
    unfold timeframe_step
    by_cases hd : regen_due st u "daily" 86400 now = true
    · rw [if_pos ((daily_guard_iff st u now).mpr hd), if_pos hd,
        generate_timeframe_summary_fst]
    · rw [if_neg (fun h => hd ((daily_guard_iff st u now).mp h)), if_neg hd]
  unfold generate_summaries
  rw [hstep]
  by_cases hd : regen_due st u "daily" 86400 now = true
  · rw [if_pos hd]
    unfold timeframe_step
    have hsame : get_latest_summary (st ++ [⟨u, "daily", generated_doc "daily" p (convs "daily") llm, now - 86400, now, now⟩]) u "weekly"
        = get_latest_summary st u "weekly" :=
      get_latest_summary_append_other _ _ _ _ (by simp)
    rw [hsame]
    by_cases hw : regen_due st u "weekly" 604800 now = true
    · rw [if_pos ((weekly_guard_iff st u now).mpr hw), if_pos hw,
        generate_timeframe_summary_fst, rows_for_append, rows_for_append]
      simp
    · rw [if_neg (fun h => hw ((weekly_guard_iff st u now).mp h)), if_neg hw,
        rows_for_append]
      simp
  · rw [if_neg hd]
    unfold timeframe_step
    by_cases hw : regen_due st u "weekly" 604800 now = true
    · rw [if_pos ((weekly_guard_iff st u now).mpr hw), if_pos hw,
        generate_timeframe_summary_fst, rows_for_append]
      simp
    · rw [if_neg (fun h => hw ((weekly_guard_iff st u now).mp h)), if_neg hw,
        List.append_nil]

/-- C1: for every user and timeframe, if zero conversation turns fall within
the timeframe window, `generate_timeframe_summary` saves exactly the fixed
six-field "no activity" placeholder document and performs no LLM call. -/
theorem no_activity_summary_saved_without_llm (st : List SummaryRow)
    (user_id timeframe : String) (p : Profile)
    (llm : String → Except String SummaryContent) (now : Nat) :
    generate_timeframe_summary st user_id timeframe (some p) [] llm now
      = (st ++ [⟨user_id, timeframe, no_activity_summary, now - 86400, now, now⟩], 0) := by
  unfold generate_timeframe_summary save_summary
  simp

/-- Fresh summary document with six themes, used to exhibit that no merging
or truncation happens on save. -/
def six_theme_summary_new : SummaryContent :=
  ⟨["n1", "n2", "n3", "n4", "n5", "n6"], "e2", [], "p2", [], "f2"⟩

/-- Prior daily summary row (itself holding six themes) present before a
regeneration run. -/
def prior_daily_row : SummaryRow :=
  ⟨"alice", "daily", ⟨["t1", "t2", "t3", "t4", "t5", "t6"], "e", [], "p", [], "f"⟩, 0, 100, 100⟩

/-- C5 counterexample: a prior daily summary with 6 themes exists and the
freshly generated summary has 6 new themes, yet the document stored as the
latest summary has 6 themes — the claimed at-most-5 bound after merging is
false, because `generate_timeframe_summary` never merges with the prior
summary (there is no merger in the code: it persists the fresh document
directly, lines 718-719 of `memory_processor.py`). -/
theorem summary_merge_cap_counterexample :
    (get_latest_summary
        ((generate_timeframe_summary [prior_daily_row] "alice" "daily" (some ⟨[]⟩)
          [⟨"user", "hello"⟩] (fun _ => Except.ok six_theme_summary_new) 200).1)
        "alice" "daily").map (fun r => decide (r.summary.key_themes.length ≤ 5))
      = some false := by
  decide

/-- C5 amended: when a prior summary exists for the (user, timeframe), the
freshly generated document is persisted directly as a new (latest) row — it
is not merged with the prior summary and its list-valued fields are not
truncated: the stored document is exactly the LLM output, and all prior rows
are retained unchanged. -/
theorem generate_timeframe_summary_saves_fresh_unmerged
    (st : List SummaryRow) (u tf : String) (p : Profile)
    (conversations : List ConvMsg) (llm : String → Except String SummaryContent)
    (now : Nat) (doc : SummaryContent)
    (hconvs : conversations ≠ [])
    (hllm : llm (summary_prompt tf (format_conversations_for_summary conversations)
        (format_codex_vitae_context p.codex_vitae)) = Except.ok doc) :
    (generate_timeframe_summary st u tf (some p) conversations llm now).1
      = st ++ [⟨u, tf, doc, now - 86400, now, now⟩] := by
  unfold generate_timeframe_summary save_summary
  simp [hconvs, hllm]

theorem generate_timeframe_summary_saves_fresh_unmerged_witness :
    ([(⟨"user", "hello"⟩ : ConvMsg)] ≠ []) ∧
    (generate_timeframe_summary [prior_daily_row] "alice" "daily" (some ⟨[]⟩)
        [⟨"user", "hello"⟩] (fun _ => Except.ok six_theme_summary_new) 200).1
      = [prior_daily_row] ++ [⟨"alice", "daily", six_theme_summary_new, 200 - 86400, 200, 200⟩] :=
  ⟨by simp,
    generate_timeframe_summary_saves_fresh_unmerged _ _ _ _ _ _ _ _ (by simp) rfl⟩

/-- C6: a timeframe's summary is regenerated by `generate_summaries` exactly
when none exists or the latest one's `last_updated` is at least 24 hours old
(daily) resp. 7 days old (weekly); consequently, after a run that generated
the daily summary at `t1`, a second run later the same calendar day (so less
than 24 hours later) adds no second daily summary row. -/
theorem generate_summaries_staleness
    (s0 : List SummaryRow) (u : String) (p : Profile)
    (convs convs2 : String → List ConvMsg)
    (llm llm2 : String → Except String SummaryContent)
    (t1 t2 : Nat)
    (hall : ∀ r ∈ s0, r.last_updated ≤ t1)
    (hdue : regen_due s0 u "daily" 86400 t1 = true)
    (h12 : t1 ≤ t2) (hsame : t2 - t1 < 86400) :
    (∀ st : List SummaryRow, ∀ now : Nat,
        (rows_for (generate_summaries st u (some p) convs llm now) u "daily").length
          = (rows_for st u "daily").length +
              (if regen_due st u "daily" 86400 now then 1 else 0) ∧
        (rows_for (generate_summaries st u (some p) convs llm now) u "weekly").length
          = (rows_for st u "weekly").length +
              (if regen_due st u "weekly" 604800 now then 1 else 0)) ∧
    rows_for (generate_summaries (generate_summaries s0 u (some p) convs llm t1)
        u (some p) convs2 llm2 t2) u "daily"
      = rows_for (generate_summaries s0 u (some p) convs llm t1) u "daily" := by
  constructor
  · intro st now
    constructor
    · rw [generate_summaries_rows_daily]
      by_cases h : regen_due st u "daily" 86400 now = true <;> simp [h]
    · rw [generate_summaries_rows_weekly]
      by_cases h : regen_due st u "weekly" 604800 now = true <;> simp [h]
  · have hrows : rows_for (generate_summaries s0 u (some p) convs llm t1) u "daily"
        = rows_for s0 u "daily" ++
            [⟨u, "daily", generated_doc "daily" p (convs "daily") llm, t1 - 86400, t1, t1⟩] := by
      rw [generate_summaries_rows_daily, if_pos hdue]
    have hstamp : ∃ r, latest_of (rows_for (generate_summaries s0 u (some p) convs llm t1) u "daily")
        = some r ∧ r.last_updated = t1 := by
      apply latest_of_stamp
      · intro r hr
        rw [hrows] at hr
        rcases List.mem_append.mp hr with h | h
        · exact hall r (List.mem_of_mem_filter h)
        · simp only [List.mem_singleton] at h
          subst h
          exact le_refl _
      · refine ⟨⟨u, "daily", generated_doc "daily" p (convs "daily") llm, t1 - 86400, t1, t1⟩, ?_, rfl⟩
        rw [hrows]
        exact List.mem_append_right _ (by simp)
    obtain ⟨r0, hr0, hlu⟩ := hstamp
    have hfalse : regen_due (generate_summaries s0 u (some p) convs llm t1) u "daily" 86400 t2
        = false := by
      unfold regen_due get_latest_summary
      rw [hr0]
      show decide (86400 ≤ t2 - r0.last_updated) = false
      rw [hlu]
      simp only [decide_eq_false_iff_not]
      omega
    rw [generate_summaries_rows_daily, hfalse]
    simp

theorem generate_summaries_staleness_witness :
    regen_due [] "alice" "daily" 86400 100 = true ∧ (100 : Nat) ≤ 200 ∧ 200 - 100 < 86400 ∧
    rows_for (generate_summaries
        (generate_summaries [] "alice" (some ⟨[]⟩) (fun _ => []) (fun _ => Except.error "down") 100)
        "alice" (some ⟨[]⟩) (fun _ => []) (fun _ => Except.error "down") 200) "alice" "daily"
      = rows_for (generate_summaries [] "alice" (some ⟨[]⟩) (fun _ => [])
          (fun _ => Except.error "down") 100) "alice" "daily" :=
  ⟨by decide, by decide, by decide,
    (generate_summaries_staleness [] "alice" ⟨[]⟩ (fun _ => []) (fun _ => [])
      (fun _ => Except.error "down") (fun _ => Except.error "down") 100 200
      (by simp) (by decide) (by decide) (by decide)).2⟩

/-- Normalization applied to a submitted topic name
(`database.py` line 578: `topic_name.lower().strip()`). -/
def normalize_topic_name (s : String) : String := pyStrip (pyLower s)

/-- AUTOINCREMENT id for a fresh `topics` row: one past the largest id. -/
def next_topic_id (ts : List Topic) : Nat :=
  (ts.map (fun t => t.id)).foldr max 0 + 1

/-- DatabaseManager.update_or_create_topic (`database.py` lines 569-622).
The lookup `WHERE user_id = ? AND LOWER(name) = ?` fetches the first matching
row in rowid order; on a hit the row is updated in place with the incremented
mention count, the running weighted-average relevance computed from the
fetched row, `last_mentioned = now`, and the name replaced only when the
submitted name is strictly longer (`CASE WHEN LENGTH(?) > LENGTH(name)`); on
a miss a fresh row is inserted with the submitted (unnormalized) name,
mention count 1 and both mention timestamps set to `now`.  Both Python's
`str.lower` and SQLite's `LOWER` are modelled by `String.toLower` (they agree
on ASCII).  Returns the row id and the new table state. -/
def update_or_create_topic (ts : List Topic) (user_id topic_name : String)
    (relevance_score : ℚ) (now : Nat) : Nat × List Topic :=
  let normalized_name := normalize_topic_name topic_name
  match ts.find? (fun t => t.user_id == user_id && pyLower t.name == normalized_name) with
  | some t =>
    let new_mention_count := t.mention_count + 1
    let new_relevance :=
      (t.relevance_score * t.mention_count + relevance_score) / new_mention_count
    (t.id, ts.map (fun r =>
      if r.id = t.id then
        { r with mention_count := new_mention_count,
                 relevance_score := new_relevance,
                 last_mentioned := now,
                 name := if topic_name.length > r.name.length then topic_name else r.name }
      else r))
  | none =>
    (next_topic_id ts,
      ts ++ [⟨next_topic_id ts, user_id, topic_name, relevance_score, now, now, 1, false⟩])

/-- Ranking score `relevance_score * mention_count` used by
`get_active_topics`. -/
def topic_rank (t : Topic) : ℚ := t.relevance_score * t.mention_count

/-- Ordering realized by `ORDER BY relevance_score * mention_count DESC,
last_mentioned DESC`. -/
def topic_before (a b : Topic) : Prop :=
  topic_rank b < topic_rank a ∨
    (topic_rank a = topic_rank b ∧ b.last_mentioned ≤ a.last_mentioned)

instance : DecidableRel topic_before := fun a b => by
  unfold topic_before
  infer_instance

instance : IsTotal Topic topic_before := ⟨by
  intro a b
  rcases lt_trichotomy (topic_rank a) (topic_rank b) with h | h | h
  · exact Or.inr (Or.inl h)
  · rcases le_total a.last_mentioned b.last_mentioned with h' | h'
    · exact Or.inr (Or.inr ⟨h.symm, h'⟩)
    · exact Or.inl (Or.inr ⟨h, h'⟩)
  · exact Or.inl (Or.inl h)⟩

instance : IsTrans Topic topic_before := ⟨by
  intro a b c hab hbc
  rcases hab with h | ⟨h1, h2⟩ <;> rcases hbc with h' | ⟨h1', h2'⟩
  · exact Or.inl (lt_trans h' h)
  · exact Or.inl (h1'.symm ▸ h)
  · exact Or.inl (h1 ▸ h')
  · exact Or.inr ⟨h1.trans h1', le_trans h2' h2⟩⟩

/-- DatabaseManager.get_active_topics (`database.py` lines 624-656): the
user's topics `WHERE last_mentioned >= datetime('now', '-7 days') OR
mention_count >= 3`, sorted by `relevance_score * mention_count DESC,
last_mentioned DESC`, limited to `limit` rows (the memory processor calls it
with `limit = 5`, `memory_processor.py` line 500). -/
def get_active_topics (ts : List Topic) (user_id : String) (now : Nat)
    (limit : Nat) : List Topic :=
  (List.insertionSort topic_before
    (ts.filter (fun t => t.user_id = user_id ∧
      (now ≤ t.last_mentioned + 604800 ∨ 3 ≤ t.mention_count)))).take limit

/-- C7: the active-topics layer holds at most 5 topics, each mentioned within
the last 7 days or with mention count at least 3, in order of non-increasing
`relevance * mention_count`. -/
theorem get_active_topics_spec (ts : List Topic) (user_id : String) (now : Nat) :
    (get_active_topics ts user_id now 5).length ≤ 5 ∧
    (∀ t ∈ get_active_topics ts user_id now 5,
      t.user_id = user_id ∧ (now ≤ t.last_mentioned + 604800 ∨ 3 ≤ t.mention_count)) ∧
    (get_active_topics ts user_id now 5).Pairwise
      (fun a b => topic_rank b ≤ topic_rank a) := by
  refine ⟨List.length_take_le _ _, ?_, ?_⟩
  · intro t ht
    have hmem : t ∈ List.insertionSort topic_before
        (ts.filter (fun t => t.user_id = user_id ∧
          (now ≤ t.last_mentioned + 604800 ∨ 3 ≤ t.mention_count))) :=
      (List.take_sublist _ _).mem ht
    have := (List.mem_filter.mp ((List.perm_insertionSort _ _).mem_iff.mp hmem)).2
    exact of_decide_eq_true this
  · have hsorted := List.sorted_insertionSort topic_before
      (ts.filter (fun t => t.user_id = user_id ∧
        (now ≤ t.last_mentioned + 604800 ∨ 3 ≤ t.mention_count)))
    have hpw := (List.Pairwise.sublist (List.take_sublist _ _) hsorted :
      (get_active_topics ts user_id now 5).Pairwise topic_before)
    exact hpw.imp (fun hab => by
      rcases hab with h | ⟨h1, _⟩
      · exact le_of_lt h
      · exact h1.ge)

theorem next_topic_id_gt (ts : List Topic) : ∀ r ∈ ts, r.id < next_topic_id ts := by
  have h : ∀ r ∈ ts, r.id ≤ (ts.map (fun t => t.id)).foldr max 0 := by
    induction ts with
    | nil => intro r hr; exact absurd hr (by simp)
    | cons a l ih =>
      intro r hr
      simp only [List.map_cons, List.foldr_cons]
      rcases List.mem_cons.mp hr with h | h
      · exact h ▸ le_max_left _ _
      · exact le_trans (ih r h) (le_max_right _ _)
  intro r hr
  have := h r hr
  unfold next_topic_id
  omega

/-- C2 counterexample: the topic name " a " (carrying surrounding whitespace)
is submitted twice, identically, for the same user; the claim demands a
single stored topic with `mention_count = 2`, but the code creates two rows
each with `mention_count = 1`: the lookup compares `LOWER(name)` of the
stored row (which keeps the whitespace the first INSERT preserved) against
`topic_name.lower().strip()` of the submission, so the second submission
never matches the first. -/
theorem topic_dedup_counterexample :
    ((update_or_create_topic
        (update_or_create_topic [] "alice" " a " 1 0).2 "alice" " a " 0 60).2.map
      (fun t => t.mention_count)) = [1, 1] := by
  decide

/-- C2 amended: the dedup key is `lower(strip(submitted))` vs `lower(stored)`,
so the claim holds for names free of surrounding whitespace.  Part one: a
topic name `nm` with no surrounding whitespace, submitted twice for the same
user (the second time as `nm2`, equal to `nm` case-insensitively) with scores
`r1`, `r2`, yields a single stored topic with relevance `(r1*1+r2)/2`,
`mention_count = 2`, and the original display name (the names have equal
length, so the strictly-longer replacement does not fire).  Part two (general
repeat mention): whenever the lookup finds a stored row `t`, the update
returns `t.id`, stores `mention_count = t.mention_count + 1`, relevance
`(t.relevance*t.mention_count + rel)/(t.mention_count+1)`, replaces the name
only if the submitted one is strictly longer, and keeps every other row. -/
theorem update_or_create_topic_weighted_average
    (ts : List Topic) (u nm nm2 : String) (r1 r2 : ℚ) (now1 now2 : Nat)
    (hA : normalize_topic_name nm = pyLower nm)
    (hB : pyLower nm2 = pyLower nm)
    (hnone : ts.find? (fun t => t.user_id == u && pyLower t.name == normalize_topic_name nm)
      = none) :
    (update_or_create_topic (update_or_create_topic ts u nm r1 now1).2 u nm2 r2 now2
        = ((update_or_create_topic ts u nm r1 now1).1,
            ts ++ [⟨(update_or_create_topic ts u nm r1 now1).1, u, nm,
              (r1 * 1 + r2) / 2, now1, now2, 2, false⟩])) ∧
    (∀ (ts' : List Topic) (u' nm' : String) (rel : ℚ) (now : Nat) (t : Topic),
      ts'.find? (fun x => x.user_id == u' && pyLower x.name == normalize_topic_name nm')
          = some t →
        (update_or_create_topic ts' u' nm' rel now).1 = t.id ∧
        { t with mention_count := t.mention_count + 1,
                 relevance_score :=
                   (t.relevance_score * t.mention_count + rel) / (t.mention_count + 1),
                 last_mentioned := now,
                 name := if nm'.length > t.name.length then nm' else t.name }
          ∈ (update_or_create_topic ts' u' nm' rel now).2 ∧
        ∀ r ∈ ts', r.id ≠ t.id → r ∈ (update_or_create_topic ts' u' nm' rel now).2) := by
  constructor
  · have hnorm : normalize_topic_name nm2 = normalize_topic_name nm := by
      unfold normalize_topic_name
      rw [hB]
    have hlen : nm2.length = nm.length := by
      rw [← pyLower_length nm2, ← pyLower_length nm, hB]
    have h1 : update_or_create_topic ts u nm r1 now1
        = (next_topic_id ts, ts ++ [⟨next_topic_id ts, u, nm, r1, now1, now1, 1, false⟩]) := by
      simp only [update_or_create_topic, hnone]
    rw [h1]
    have hrow : ((⟨next_topic_id ts, u, nm, r1, now1, now1, 1, false⟩ : Topic).user_id == u
        && pyLower (⟨next_topic_id ts, u, nm, r1, now1, now1, 1, false⟩ : Topic).name
            == normalize_topic_name nm2) = true := by
      rw [hnorm]
      show (u == u && pyLower nm == normalize_topic_name nm) = true
      rw [hA]
      simp
    have hfind2 : (ts ++ [(⟨next_topic_id ts, u, nm, r1, now1, now1, 1, false⟩ : Topic)]).find?
        (fun t => t.user_id == u && pyLower t.name == normalize_topic_name nm2)
        = some ⟨next_topic_id ts, u, nm, r1, now1, now1, 1, false⟩ := by
      rw [List.find?_append]
      have hnone2 : ts.find?
          (fun t => t.user_id == u && pyLower t.name == normalize_topic_name nm2) = none := by
        rw [show (fun (t : Topic) => t.user_id == u && pyLower t.name == normalize_topic_name nm2)
            = (fun (t : Topic) => t.user_id == u && pyLower t.name == normalize_topic_name nm)
          from funext (fun t => by rw [hnorm])]
        exact hnone
      rw [hnone2]
      simp only [List.find?_cons, hrow]
      rfl
    simp only [update_or_create_topic, hfind2]
    rw [Prod.mk.injEq]
    refine ⟨rfl, ?_⟩
    rw [List.map_append]
    congr 1
    · refine (List.map_congr_left ?_).trans (List.map_id ts)
      intro a ha
      exact if_neg (Nat.ne_of_lt (next_topic_id_gt ts a ha))
    · simp only [List.map_cons, List.map_nil, List.cons.injEq, and_true]
      rw [if_pos trivial]
      simp only [Topic.mk.injEq]
      refine ⟨trivial, trivial, ?_, ?_, trivial, trivial, by norm_num, trivial⟩
      · rw [hlen]
        simp
      · push_cast
        norm_num
  · intro ts' u' nm' rel now t hfind
    simp only [update_or_create_topic, hfind]
    refine ⟨trivial, ?_, ?_⟩
    · have ht : t ∈ ts' := List.mem_of_find?_eq_some hfind
      refine List.mem_map.mpr ⟨t, ht, ?_⟩
      dsimp only
      rw [if_pos rfl]
      have hc : ((t.mention_count + 1 : Nat) : ℚ) = (t.mention_count : ℚ) + 1 := by
        push_cast
        ring
      rw [hc]
    · intro r hr hne
      refine List.mem_map.mpr ⟨r, hr, ?_⟩
      exact if_neg hne

theorem update_or_create_topic_weighted_average_witness :
    normalize_topic_name "Work" = pyLower "Work" ∧
    pyLower "work" = pyLower "Work" ∧
    update_or_create_topic (update_or_create_topic [] "alice" "Work" 4 0).2 "alice" "work" 2 60
      = ((update_or_create_topic [] "alice" "Work" 4 0).1,
          [] ++ [⟨(update_or_create_topic [] "alice" "Work" 4 0).1, "alice", "Work",
            ((4 : ℚ) * 1 + 2) / 2, 0, 60, 2, false⟩]) :=
  ⟨by decide, by decide,
    (update_or_create_topic_weighted_average [] "alice" "Work" "work" 4 2 0 60
      (by decide) (by decide) rfl).1⟩

/-- Python's substring containment `a in b` on strings (contiguous
subsequence of characters). -/
def substr_of (a b : String) : Bool := decide (a.data <:+: b.data)

/-- AUTOINCREMENT id for a fresh `conversations` row: one past the largest. -/
def next_conv_id (rows : List Conv) : Nat :=
  (rows.map (fun c => c.id)).foldr max 0 + 1

theorem next_conv_id_gt (rows : List Conv) : ∀ m ∈ rows, m.id < next_conv_id rows := by
  have h : ∀ m ∈ rows, m.id ≤ (rows.map (fun c => c.id)).foldr max 0 := by
    induction rows with
    | nil => intro m hm; exact absurd hm (by simp)
    | cons a l ih =>
      intro m hm
      simp only [List.map_cons, List.foldr_cons]
      rcases List.mem_cons.mp hm with h | h
      · exact h ▸ le_max_left _ _
      · exact le_trans (ih m h) (le_max_right _ _)
  intro m hm
  have := h m hm
  unfold next_conv_id
  omega

/-- Row filter of the duplicate-detection query of `save_conversation`
(`database.py` lines 252-260): same user, same role, `timestamp >=
datetime('now', '-1 minute')`. -/
def recent_pred (user_id role : String) (now : Nat) (c : Conv) : Bool :=
  c.user_id = user_id ∧ c.role = role ∧ now ≤ c.timestamp + 60

/-- The recent-duplicates scan of `save_conversation`: the query above with
`ORDER BY timestamp DESC LIMIT 5`.  The table is kept in insertion (rowid)
order and every insert stamps the row with the current time, so timestamps
are non-decreasing in rowid order and `ORDER BY timestamp DESC` is realized
by reversing the filtered rowid order (SQLite leaves the relative order of
equal timestamps unspecified). -/
def recent_messages (rows : List Conv) (user_id role : String) (now : Nat) : List Conv :=
  ((rows.filter (recent_pred user_id role now)).reverse).take 5

/-- The near-duplicate test of `save_conversation` (lines 265-270): the new
content is an exact match of the recent row's content, or either string is
longer than 10 characters and contained in the other. -/
def is_duplicate_of (content msg_content : String) : Bool :=
  content == msg_content ||
    (content.length > 10 && substr_of content msg_content) ||
    (msg_content.length > 10 && substr_of msg_content content)

/-- DatabaseManager.save_conversation (`database.py` lines 244-282): scan the
five most recent same-user same-role rows of the last minute in timestamp-
descending order; on the first near-duplicate return its id without
inserting, otherwise insert a fresh row stamped `now` and return its id. -/
def save_conversation (rows : List Conv) (user_id role content : String)
    (now : Nat) : Nat × List Conv :=
  match (recent_messages rows user_id role now).find?
      (fun m => is_duplicate_of content m.content) with
  | some m => (m.id, rows)
  | none =>
    (next_conv_id rows, rows ++ [⟨next_conv_id rows, user_id, role, content, now⟩])

theorem recent_messages_mem {rows : List Conv} {u r : String} {now : Nat} {m : Conv}
    (h : m ∈ recent_messages rows u r now) :
    m ∈ rows ∧ m.user_id = u ∧ m.role = r ∧ now ≤ m.timestamp + 60 := by
  unfold recent_messages at h
  have h1 := (List.take_sublist _ _).mem h
  rw [List.mem_reverse] at h1
  have h2 := List.mem_filter.mp h1
  exact ⟨h2.1, of_decide_eq_true h2.2⟩

/-- If the first match within the first `n` entries of `l` is `m`, and `m`
survives a further filter `q` (still within the first `n` entries), then `m`
is also the first match there: entries preceding `m` keep failing `p` after
filtering. -/
theorem find?_take_filter {α : Type} (p q : α → Bool) (m : α) :
    ∀ (l : List α) (n : Nat), (l.take n).find? p = some m →
      m ∈ ((l.filter q).take n) → ((l.filter q).take n).find? p = some m := by
  have mono : ∀ (l : List α) (k n : Nat), k ≤ n →
      (l.take k).find? p = some m → (l.take n).find? p = some m := by
    intro l
    induction l with
    | nil => intro k n _ h; simp at h
    | cons a t ih =>
      intro k n hkn h
      match k, n, hkn with
      | 0, _, _ => simp at h
      | k' + 1, n' + 1, hkn =>
        rw [List.take_succ_cons] at h ⊢
        by_cases hpa : p a = true
        · rwa [List.find?_cons_of_pos _ hpa] at h ⊢
        · rw [List.find?_cons_of_neg _ (by simpa using hpa)] at h ⊢
          exact ih k' n' (Nat.le_of_succ_le_succ hkn) h
  intro l
  induction l with
  | nil => intro n h _; simp at h
  | cons a t ih =>
    intro n h hmem
    match n with
    | 0 => simp at h
    | k + 1 =>
      rw [List.take_succ_cons] at h
      by_cases hpa : p a = true
      · rw [List.find?_cons_of_pos _ hpa] at h
        have hma : a = m := by injection h
        by_cases hqa : q a = true
        · rw [List.filter_cons_of_pos hqa, List.take_succ_cons,
            List.find?_cons_of_pos _ hpa, hma]
        · rw [List.filter_cons_of_neg (by simpa using hqa)] at hmem
          have hmf := List.mem_filter.mp ((List.take_sublist _ _).mem hmem)
          rw [hma] at hqa
          exact absurd hmf.2 hqa
      · rw [List.find?_cons_of_neg _ (by simpa using hpa)] at h
        by_cases hqa : q a = true
        · rw [List.filter_cons_of_pos hqa, List.take_succ_cons] at hmem ⊢
          rw [List.find?_cons_of_neg _ (by simpa using hpa)]
          have hmem' : m ∈ (t.filter q).take k := by
            rcases List.mem_cons.mp hmem with he | hm
            · exact absurd (he ▸ List.find?_some h) (by simpa using hpa)
            · exact hm
          exact ih k h hmem'
        · rw [List.filter_cons_of_neg (by simpa using hqa)] at hmem ⊢
          exact ih (k + 1) (mono t k (k + 1) (Nat.le_succ k) h) hmem

theorem recent_pred_narrow {u r : String} {now now2 : Nat} (h : now ≤ now2) (c : Conv)
    (h2 : recent_pred u r now2 c = true) : recent_pred u r now c = true := by
  have hp := of_decide_eq_true h2
  exact decide_eq_true ⟨hp.1, hp.2.1, le_trans h hp.2.2⟩

/-- The dedup window only narrows as the clock advances: the scan at a later
time is the old filtered scan filtered once more by the newer window. -/
theorem recent_messages_narrow (rows : List Conv) (u r : String) (now now2 : Nat)
    (h : now ≤ now2) :
    recent_messages rows u r now2
      = (((rows.filter (recent_pred u r now)).reverse).filter (recent_pred u r now2)).take 5 := by
  unfold recent_messages
  rw [List.filter_reverse]
  have heq : rows.filter (recent_pred u r now2)
      = (rows.filter (recent_pred u r now)).filter (recent_pred u r now2) := by
    rw [List.filter_filter]
    refine List.filter_congr ?_
    intro a _
    by_cases h2 : recent_pred u r now2 a = true
    · rw [h2, recent_pred_narrow h a h2]
      rfl
    · rw [Bool.not_eq_true] at h2
      rw [h2]
      rfl
  rw [heq]

/-- C3: submitting the same content twice, with the second call still seeing
the row returned by the first among its recent same-user same-role scan,
returns the same turn id both times and leaves the table unchanged (no second
row).  The clock is monotone and row ids are distinct. -/
theorem save_conversation_idempotent
    (rows : List Conv) (u r c : String) (now now2 : Nat)
    (hmono : now ≤ now2)
    (hnodup : (rows.map (fun x => x.id)).Nodup)
    (hwin : ∃ m ∈ recent_messages (save_conversation rows u r c now).2 u r now2,
        m.id = (save_conversation rows u r c now).1) :
    save_conversation (save_conversation rows u r c now).2 u r c now2
      = ((save_conversation rows u r c now).1, (save_conversation rows u r c now).2) := by
  cases hf : (recent_messages rows u r now).find? (fun m => is_duplicate_of c m.content) with
  | some m =>
    have hres : save_conversation rows u r c now = (m.id, rows) := by
      unfold save_conversation
      rw [hf]
    rw [hres] at hwin ⊢
    obtain ⟨m', hm', hid⟩ := hwin
    have hm'rows := (recent_messages_mem hm').1
    have hmscan : m ∈ recent_messages rows u r now := List.mem_of_find?_eq_some hf
    have hmrows : m ∈ rows := (recent_messages_mem hmscan).1
    have heq : m' = m := List.inj_on_of_nodup_map hnodup hm'rows hmrows hid
    subst heq
    have hscan2 := recent_messages_narrow rows u r now now2 hmono
    rw [hscan2] at hm'
    have hf' : (((rows.filter (recent_pred u r now)).reverse).take 5).find?
        (fun x => is_duplicate_of c x.content) = some m' := hf
    have hfound := find?_take_filter (fun x => is_duplicate_of c x.content)
      (recent_pred u r now2) m' ((rows.filter (recent_pred u r now)).reverse) 5 hf' hm'
    show save_conversation rows u r c now2 = (m'.id, rows)
    unfold save_conversation
    rw [hscan2, hfound]
  | none =>
    have hres : save_conversation rows u r c now
        = (next_conv_id rows, rows ++ [⟨next_conv_id rows, u, r, c, now⟩]) := by
      unfold save_conversation
      rw [hf]
    rw [hres] at hwin ⊢
    obtain ⟨m', hm', hid⟩ := hwin
    have hmem := recent_messages_mem hm'
    have hm'new : m' = ⟨next_conv_id rows, u, r, c, now⟩ := by
      rcases List.mem_append.mp hmem.1 with h | h
      · exact absurd hid (Nat.ne_of_lt (next_conv_id_gt rows m' h))
      · simpa using h
    have hP2new : recent_pred u r now2 (⟨next_conv_id rows, u, r, c, now⟩ : Conv) = true := by
      have ht := hmem.2.2.2
      rw [hm'new] at ht
      exact decide_eq_true ⟨rfl, rfl, ht⟩
    have hscan : recent_messages (rows ++ [⟨next_conv_id rows, u, r, c, now⟩]) u r now2
        = (⟨next_conv_id rows, u, r, c, now⟩ : Conv) ::
            ((rows.filter (recent_pred u r now2)).reverse).take 4 := by
      unfold recent_messages
      rw [List.filter_append,
        show List.filter (recent_pred u r now2) [(⟨next_conv_id rows, u, r, c, now⟩ : Conv)]
          = [(⟨next_conv_id rows, u, r, c, now⟩ : Conv)] from by
            rw [List.filter_cons_of_pos hP2new]
            rfl,
        List.reverse_append]
      rfl
    have hfind2 : List.find? (fun m => is_duplicate_of c m.content)
        ((⟨next_conv_id rows, u, r, c, now⟩ : Conv) ::
          ((rows.filter (recent_pred u r now2)).reverse).take 4)
        = some ⟨next_conv_id rows, u, r, c, now⟩ := by
      rw [List.find?_cons]
      simp [is_duplicate_of]
    unfold save_conversation
    rw [hscan, hfind2]

theorem save_conversation_idempotent_witness :
    (0 : Nat) ≤ 30 ∧ ((([] : List Conv)).map (fun x => x.id)).Nodup ∧
    save_conversation (save_conversation [] "alice" "user" "hello" 0).2 "alice" "user" "hello" 30
      = ((save_conversation [] "alice" "user" "hello" 0).1,
          (save_conversation [] "alice" "user" "hello" 0).2) :=
  ⟨by decide, by decide,
    save_conversation_idempotent [] "alice" "user" "hello" 0 30
      (by decide) (by decide) (by decide)⟩

/-- C10: the duplicate scan compares only the five most recent same-user
same-role turns of the last minute; an exact content match collapses
regardless of length (no row is inserted); but substring-based collapsing
requires the contained string to be longer than 10 characters, so two
distinct contents of length at most 10, one a substring of the other, always
produce two separate rows. -/
theorem save_conversation_dedup_scope
    (rows : List Conv) (u r c c1 c2 : String) (now now1 now2 : Nat)
    (hlen1 : c1.length ≤ 10) (hlen2 : c2.length ≤ 10) (hne : c1 ≠ c2)
    (hsub : substr_of c1 c2 = true) :
    ((recent_messages rows u r now).length ≤ 5 ∧
      ∀ m ∈ recent_messages rows u r now,
        m.user_id = u ∧ m.role = r ∧ now ≤ m.timestamp + 60) ∧
    ((∃ m ∈ recent_messages rows u r now, m.content = c) →
      (save_conversation rows u r c now).2 = rows) ∧
    (save_conversation (save_conversation [] u r c1 now1).2 u r c2 now2).2.length = 2 := by
  refine ⟨⟨List.length_take_le _ _, fun m hm => (recent_messages_mem hm).2⟩, ?_, ?_⟩
  · rintro ⟨m, hm, hcm⟩
    unfold save_conversation
    cases hf : (recent_messages rows u r now).find? (fun x => is_duplicate_of c x.content) with
    | some m' => rfl
    | none =>
      rw [List.find?_eq_none] at hf
      have hdup : is_duplicate_of c m.content = true := by
        rw [hcm]
        unfold is_duplicate_of
        simp
      exact absurd hdup (hf m hm)
  · have h1 : save_conversation [] u r c1 now1
        = (1, [⟨1, u, r, c1, now1⟩]) := rfl
    rw [h1]
    have hnone : (recent_messages [⟨1, u, r, c1, now1⟩] u r now2).find?
        (fun x => is_duplicate_of c2 x.content) = none := by
      rw [List.find?_eq_none]
      intro x hx
      have hx1 : x = ⟨1, u, r, c1, now1⟩ := by
        have := (recent_messages_mem hx).1
        simpa using this
      rw [hx1]
      show ¬ is_duplicate_of c2 c1 = true
      unfold is_duplicate_of
      simp [Ne.symm hne, Nat.not_lt.mpr hlen1, Nat.not_lt.mpr hlen2]
    unfold save_conversation
    rw [hnone]
    rfl

theorem save_conversation_dedup_scope_witness :
    ("ab" : String).length ≤ 10 ∧ ("abc" : String).length ≤ 10 ∧
    ("ab" : String) ≠ "abc" ∧ substr_of "ab" "abc" = true ∧
    (save_conversation (save_conversation [] "alice" "user" "ab" 10).2
        "alice" "user" "abc" 20).2.length = 2 :=
  ⟨by decide, by decide, by decide, by decide,
    (save_conversation_dedup_scope [] "alice" "user" "x" "ab" "abc" 5 10 20
      (by decide) (by decide) (by decide) (by decide)).2.2⟩

/-- Pydantic model `ActionItem` (`memory_processor.py` lines 45-47). -/
structure ActionItem where
  content : String
deriving DecidableEq

/-- Pydantic model `ActionItemsResponse` (`memory_processor.py` lines 50-52):
`items: List[ActionItem]` with no default value, so the field is required —
in pydantic (the repository uses the v2 API, `model_dump()`), the
zero-argument construction `ActionItemsResponse()` therefore raises a
ValidationError instead of producing an empty container. -/
structure ActionItemsResponse where
  items : List ActionItem
deriving DecidableEq

/-- Result of evaluating the Python expression `ActionItemsResponse()`:
pydantic validation of the missing required `items` field raises. -/
def empty_action_items_response : Except String ActionItemsResponse :=
  Except.error "ValidationError: 1 validation error for ActionItemsResponse: items Field required"

/-- MemoryProcessor._extract_action_items_from_message (`memory_processor.py`
lines 306-340).  `llm` is the structured-output call's outcome.  On an empty
message the code returns `ActionItemsResponse()` (line 309), which raises.
On an LLM failure the inner handler (line 336) returns
`ActionItemsResponse()`, which itself raises; the outer handler (line 340)
does the same, so the ValidationError escapes to the caller. -/
def extract_action_items_from_message (message : String)
    (llm : Except String ActionItemsResponse) : Except String ActionItemsResponse :=
  if message = "" then empty_action_items_response
  else
    match llm with
    | Except.ok parsed => Except.ok parsed
    | Except.error _ => empty_action_items_response

/-- C4: at the failing input — a non-empty assistant message whose LLM call
raises — the extractor does not return an empty item list: it raises a
pydantic ValidationError to its caller, because the `ActionItemsResponse()`
fallback in both exception handlers is itself an invalid zero-argument
construction of a model with a required `items` field. -/
theorem extract_action_items_raises_on_llm_failure :
    extract_action_items_from_message "Try a short breathing exercise tonight"
        (Except.error "APITimeoutError")
      = Except.error "ValidationError: 1 validation error for ActionItemsResponse: items Field required" :=
  rfl

/-- Update of the scheduler's `last_check` dict on a successful generation
(`summary_scheduler.py` line 72); on failure the dict entry is not written. -/
def process_user (now : Nat) (gen : String → Except String Unit)
    (last_check : String → Option Nat) (user : String) : String → Option Nat :=
  match gen user with
  | Except.ok _ => fun v => if v = user then some now else last_check v
  | Except.error _ => last_check

/-- One sweep of SummaryScheduler._check_all_users (`summary_scheduler.py`
lines 54-74): for each user, skip when checked less than an hour ago,
otherwise invoke summary generation inside a per-user try/except — a raise
(`Except.error`) is logged and the loop continues with the remaining users.
Returns the updated last-check map and the users for which generation was
invoked, in sweep order. -/
def check_all_users (now : Nat) (gen : String → Except String Unit) :
    List String → (String → Option Nat) → ((String → Option Nat) × List String)
  | [], last_check => (last_check, [])
  | user :: rest, last_check =>
    match last_check user with
    | some t =>
      if now - t < 3600 then check_all_users now gen rest last_check
      else
        ((check_all_users now gen rest (process_user now gen last_check user)).1,
          user :: (check_all_users now gen rest (process_user now gen last_check user)).2)
    | none =>
      ((check_all_users now gen rest (process_user now gen last_check user)).1,
        user :: (check_all_users now gen rest (process_user now gen last_check user)).2)

/-- Eligibility of a user in a sweep at time `now`: never checked, or checked
at least an hour ago. -/
def user_due (now : Nat) (last_check : String → Option Nat) (user : String) : Bool :=
  match last_check user with
  | some t => if now - t < 3600 then false else true
  | none => true

theorem process_user_agree (now : Nat) (gen : String → Except String Unit)
    (last_check : String → Option Nat) (user v : String) (h : v ≠ user) :
    process_user now gen last_check user v = last_check v := by
  unfold process_user
  cases gen user with
  | ok _ => exact if_neg h
  | error _ => rfl

/-- C9: the list of users actually processed by a sweep is exactly the
eligible users, regardless of which generation calls raise — a single user's
failure never aborts the sweep over the remaining users (the per-user
try/except only suppresses that user's `last_check` update). -/
theorem check_all_users_processes_all (now : Nat) (gen : String → Except String Unit)
    (users : List String) (lc : String → Option Nat) (hnodup : users.Nodup) :
    (check_all_users now gen users lc).2 = users.filter (user_due now lc) := by
  suffices h : ∀ (us : List String) (lc' : String → Option Nat), us.Nodup →
      (∀ v ∈ us, lc' v = lc v) →
      (check_all_users now gen us lc').2 = us.filter (user_due now lc) from
    h users lc hnodup (fun _ _ => rfl)
  intro us
  induction us with
  | nil => intro lc' _ _; rfl
  | cons u rest ih =>
    intro lc' hnd hagree
    have hnd' := List.nodup_cons.mp hnd
    have hu : lc' u = lc u := hagree u (by simp)
    have hagree' : ∀ v ∈ rest, process_user now gen lc' u v = lc v := by
      intro v hv
      rw [process_user_agree now gen lc' u v (fun he => hnd'.1 (he ▸ hv)),
        hagree v (by simp [hv])]
    have hagree'' : ∀ v ∈ rest, lc' v = lc v := fun v hv => hagree v (by simp [hv])
    unfold check_all_users
    cases hc : lc' u with
    | some t =>
      dsimp only
      by_cases hlt : now - t < 3600
      · rw [if_pos hlt, ih lc' hnd'.2 hagree'']
        have hdue : user_due now lc u = false := by
          unfold user_due
          rw [← hu, hc]
          dsimp only
          rw [if_pos hlt]
        rw [List.filter_cons_of_neg (by simp [hdue])]
      · rw [if_neg hlt]
        show u :: (check_all_users now gen rest (process_user now gen lc' u)).2
            = (u :: rest).filter (user_due now lc)
        rw [ih (process_user now gen lc' u) hnd'.2 hagree']
        have hdue : user_due now lc u = true := by
          unfold user_due
          rw [← hu, hc]
          dsimp only
          rw [if_neg hlt]
        rw [List.filter_cons_of_pos hdue]
    | none =>
      dsimp only
      show u :: (check_all_users now gen rest (process_user now gen lc' u)).2
          = (u :: rest).filter (user_due now lc)
      rw [ih (process_user now gen lc' u) hnd'.2 hagree']
      have hdue : user_due now lc u = true := by
        unfold user_due
        rw [← hu, hc]
      rw [List.filter_cons_of_pos hdue]

theorem check_all_users_processes_all_witness :
    (["ana", "bob", "cal"] : List String).Nodup ∧
    (check_all_users 5000 (fun u => if u = "bob" then Except.error "boom" else Except.ok ())
        ["ana", "bob", "cal"] (fun _ => none)).2
      = (["ana", "bob", "cal"] : List String).filter (user_due 5000 (fun _ => none)) :=
  ⟨by decide,
    check_all_users_processes_all 5000
      (fun u => if u = "bob" then Except.error "boom" else Except.ok ())
      ["ana", "bob", "cal"] (fun _ => none) (by decide)⟩

/-- Pydantic model `MessageAnalysis` (`memory_processor.py` lines 25-31). -/
structure MessageAnalysis where
  primary_intent : String
  emotional_state : String
  urgency_level : Nat
  topics : List String
  potential_triggers : Option String
deriving DecidableEq

/-- Python's membership test `key in analysis` where `analysis` is a pydantic
BaseModel instance (as produced by `_analyze_current_query`): BaseModel
defines no `__contains__`, so `in` falls back to `__iter__`, which yields
`(field_name, value)` tuples; comparing the string key against those tuples
never succeeds, so the test is always False — and the dict-style access
`analysis['primary_intent']` on the following line would raise if it were
ever reached. -/
def pydantic_model_contains (key : String) (analysis : MessageAnalysis) : Bool :=
  false

/-- The comprehensive context object assembled by `get_comprehensive_context`
(`memory_processor.py` lines 180-199), restricted to the parts
`format_context_for_llm` reads: recent messages (immediate context), insight
contents grouped by category and the codex vitae (user profile), the
current-query analysis (always a `MessageAnalysis` instance —
`_analyze_current_query` returns its documented default on failure, never a
falsy value), the active topics, and the pending action-item contents
(progress metrics).  Python dicts are modelled as association lists in
insertion order. -/
structure Context where
  recent_messages : List ConvMsg
  insights : List (String × List String)
  codex_vitae : List (String × String)
  current_query_analysis : MessageAnalysis
  active_topics : List Topic
  action_items : List String
deriving DecidableEq

/-- MemoryProcessor.format_context_for_llm (`memory_processor.py` lines
519-587): build the flattened prompt block, layer by layer in the fixed
order, joining the collected lines with newlines.  Every non-empty layer
appends a trailing empty line.  The current-query-analysis layer is emitted
unconditionally (its dict key is always present and a model instance is
always truthy), but each of its three field lines is guarded by a
`pydantic_model_contains` test. -/
def format_context_for_llm (ctx : Context) : String :=
  let recent_block : List String :=
    if ctx.recent_messages ≠ [] then
      ["RECENT CONVERSATION:"] ++
        ((ctx.recent_messages.drop (ctx.recent_messages.length - 3)).map
          (fun m => (m.role.append ": ").append m.content)) ++ [""]
    else []
  let insights_block : List String :=
    if ctx.insights ≠ [] then
      ["USER INSIGHTS:"] ++
        (ctx.insights.filterMap (fun ci =>
          if ci.2 ≠ [] then
            some ((pyCapitalize ci.1).append
              (": ".append (String.intercalate ", " (ci.2.take 3))))
          else none)) ++ [""]
    else []
  let codex_block : List String :=
    if ctx.codex_vitae ≠ [] then
      ["FROM CODEX VITAE:"] ++
        (priority_keys.filterMap (fun key =>
          match ctx.codex_vitae.lookup key with
          | some v =>
            if v ≠ "" then
              some ((pyCapitalize (replaceUnderscores key)).append (": ".append v))
            else none
          | none => none)) ++ [""]
    else []
  let analysis_block : List String :=
    ["CURRENT QUERY ANALYSIS:"] ++
      (if pydantic_model_contains "primary_intent" ctx.current_query_analysis then
        ["Intent: ".append ctx.current_query_analysis.primary_intent]
      else []) ++
      (if pydantic_model_contains "emotional_state" ctx.current_query_analysis then
        ["Emotional State: ".append ctx.current_query_analysis.emotional_state]
      else []) ++
      (if pydantic_model_contains "potential_triggers" ctx.current_query_analysis then
        ["Potential Triggers: ".append
          (match ctx.current_query_analysis.potential_triggers with
            | some s => s
            | none => "None")]
      else []) ++ [""]
  let topics_block : List String :=
    if ctx.active_topics ≠ [] then
      ["ACTIVE TOPICS:"] ++ (ctx.active_topics.map (fun t => "- ".append t.name)) ++ [""]
    else []
  let actions_block : List String :=
    if ctx.action_items ≠ [] then
      ["ACTION ITEMS:"] ++ (ctx.action_items.map (fun it => "- ".append it)) ++ [""]
    else []
  String.intercalate "\n"
    (recent_block ++ insights_block ++ codex_block ++ analysis_block ++
      topics_block ++ actions_block)

/-- Fully-populated context used to evaluate the formatter. -/
def sample_context : Context :=
  { recent_messages := [⟨"user", "m1"⟩, ⟨"assistant", "m2"⟩, ⟨"user", "m3"⟩,
      ⟨"assistant", "m4"⟩]
    insights := [("value", ["honesty", "growth", "calm", "extra"]), ("trigger", ["deadlines"])]
    codex_vitae := [("core_values", "family"), ("joy_triggers", "music"), ("other_key", "x")]
    current_query_analysis := ⟨"seeking_support", "anxious", 7, ["work"], some "deadline pressure"⟩
    active_topics := [⟨1, "alice", "work stress", 1, 0, 0, 2, false⟩]
    action_items := ["Breathing exercise"] }

/-- Context with every data-bearing layer empty (the analysis field still
holds the documented default that `_analyze_current_query` returns). -/
def empty_layers_context : Context :=
  { recent_messages := []
    insights := []
    codex_vitae := []
    current_query_analysis := ⟨"unknown", "neutral", 5, [], some "none detected"⟩
    active_topics := []
    action_items := [] }

set_option maxRecDepth 10000 in
/-- C8: evaluated on a fully-populated context, the flattened block lists the
layers in the fixed order — but the CURRENT QUERY ANALYSIS section contains
no Intent, Emotional State or Potential Triggers lines (its field guards
test string membership on a pydantic model, which always fails); and on a
context whose data-bearing layers are all empty, every such layer is omitted
entirely while the analysis header is still emitted, empty. -/
theorem format_context_analysis_fields_missing :
    format_context_for_llm sample_context
      = "RECENT CONVERSATION:\nassistant: m2\nuser: m3\nassistant: m4\n\nUSER INSIGHTS:\nValue: honesty, growth, calm\nTrigger: deadlines\n\nFROM CODEX VITAE:\nCore values: family\nJoy triggers: music\n\nCURRENT QUERY ANALYSIS:\n\nACTIVE TOPICS:\n- work stress\n\nACTION ITEMS:\n- Breathing exercise\n" ∧
    format_context_for_llm empty_layers_context = "CURRENT QUERY ANALYSIS:\n" :=
  ⟨by decide, by decide⟩
